import Mathlib

/-!
Shallow embedding of the racing-game core found in `src/app/page.tsx`:
the procedural track generator (`generateRandomTrack` plus the boundary
offset loop), the per-frame vehicle dynamics of the `animate` callback,
and the manual gear shift of `handleKeyUp`.  Floating-point values are
modelled as real numbers; three.js vectors as explicit records.
-/

namespace CarGame

/-! ### Planar points and 3D vectors -/

/-- A planar point `{x, z}` as produced by `generateRandomTrack`. -/
structure Pt2 where
  x : ℝ
  z : ℝ

/-- A 3D vector, mirroring `THREE.Vector3`. -/
structure Vec3 where
  x : ℝ
  y : ℝ
  z : ℝ

/-- Componentwise vector addition, mirroring `THREE.Vector3.add`. -/
def Vec3.add (a b : Vec3) : Vec3 :=
  ⟨a.x + b.x, a.y + b.y, a.z + b.z⟩

/-- Scalar multiple of a vector, mirroring `THREE.Vector3.multiplyScalar`. -/
def Vec3.scale (v : Vec3) (c : ℝ) : Vec3 :=
  ⟨v.x * c, v.y * c, v.z * c⟩

/-- Euclidean norm, mirroring `THREE.Vector3.length`. -/
noncomputable def Vec3.length (v : Vec3) : ℝ :=
  Real.sqrt (v.x ^ 2 + v.y ^ 2 + v.z ^ 2)

/-- Normalization, mirroring `THREE.Vector3.normalize`: divide by
`length || 1`, so the zero vector is left unchanged. -/
noncomputable def Vec3.normalize (v : Vec3) : Vec3 :=
  v.scale (1 / (if v.length = 0 then 1 else v.length))

theorem Vec3.length_nonneg (v : Vec3) : 0 ≤ v.length :=
  Real.sqrt_nonneg _

theorem Vec3.length_scale (v : Vec3) (c : ℝ) :
    (v.scale c).length = |c| * v.length := by
  unfold Vec3.length Vec3.scale
  rw [show (v.x * c) ^ 2 + (v.y * c) ^ 2 + (v.z * c) ^ 2
      = c ^ 2 * (v.x ^ 2 + v.y ^ 2 + v.z ^ 2) by ring,
    Real.sqrt_mul (sq_nonneg c), Real.sqrt_sq_eq_abs]

theorem Vec3.length_zdir (c : ℝ) : (Vec3.mk 0 0 c).length = |c| := by
  unfold Vec3.length
  rw [show (0:ℝ) ^ 2 + 0 ^ 2 + c ^ 2 = c ^ 2 by ring, Real.sqrt_sq_eq_abs]

theorem Vec3.length_eq_zero_iff (v : Vec3) :
    v.length = 0 ↔ v.x = 0 ∧ v.y = 0 ∧ v.z = 0 := by
  unfold Vec3.length
  rw [Real.sqrt_eq_zero (by positivity)]
  constructor
  · intro h
    refine ⟨?_, ?_, ?_⟩ <;> nlinarith [sq_nonneg v.x, sq_nonneg v.y, sq_nonneg v.z]
  · rintro ⟨hx, hy, hz⟩
    rw [hx, hy, hz]; ring

/-- Norm of the normalized vector: `1` unless the vector is zero. -/
theorem Vec3.length_normalize (v : Vec3) (h : v.length ≠ 0) :
    v.normalize.length = 1 := by
  unfold Vec3.normalize
  rw [Vec3.length_scale, if_neg h, abs_div, abs_one,
    abs_of_nonneg (Vec3.length_nonneg v)]
  field_simp

/-! ### Track generation (`generateRandomTrack`, lines 76–92) -/

/-- The `numPoints` constant of `generateRandomTrack`. -/
def numPoints : ℕ := 32

/-- The `baseRadius` constant of `generateRandomTrack`. -/
def baseRadius : ℝ := 180

/-- The `trackWidth` constant (line 148). -/
def trackWidth : ℝ := 60

/-- The loop's `angle = (i / numPoints) * Math.PI * 2`. -/
noncomputable def trackAngle (i : ℕ) : ℝ :=
  ((i : ℝ) / numPoints) * Real.pi * 2

/-- The loop's `radiusVariation = baseRadius + Math.sin(angle*2)*15 + Math.cos(angle*4)*8`. -/
noncomputable def radiusVariation (i : ℕ) : ℝ :=
  baseRadius + Real.sin (trackAngle i * 2) * 15 + Real.cos (trackAngle i * 4) * 8

/-- The `i`-th centerline point pushed by `generateRandomTrack`. -/
noncomputable def trackPoint (i : ℕ) : Pt2 :=
  ⟨Real.cos (trackAngle i) * radiusVariation i,
   Real.sin (trackAngle i) * radiusVariation i⟩

/-- The full list returned by `generateRandomTrack`. -/
noncomputable def generateRandomTrack : List Pt2 :=
  (List.range numPoints).map trackPoint

/-- Euclidean length of a planar vector (as `THREE.Vector2.length`). -/
noncomputable def len2 (p : Pt2) : ℝ :=
  Real.sqrt (p.x ^ 2 + p.z ^ 2)

/-- Euclidean distance between two planar points. -/
noncomputable def dist2 (p q : Pt2) : ℝ :=
  Real.sqrt ((p.x - q.x) ^ 2 + (p.z - q.z) ^ 2)

theorem radiusVariation_bounds (i : ℕ) :
    157 ≤ radiusVariation i ∧ radiusVariation i ≤ 203 := by
  unfold radiusVariation baseRadius
  have h1 := Real.neg_one_le_sin (trackAngle i * 2)
  have h2 := Real.sin_le_one (trackAngle i * 2)
  have h3 := Real.neg_one_le_cos (trackAngle i * 4)
  have h4 := Real.cos_le_one (trackAngle i * 4)
  constructor <;> nlinarith

/-- The distance of the `i`-th centerline point from the origin is
exactly the perturbed radius. -/
theorem len2_trackPoint (i : ℕ) : len2 (trackPoint i) = radiusVariation i := by
  have hr : 0 ≤ radiusVariation i := by
    have := (radiusVariation_bounds i).1; linarith
  unfold len2 trackPoint
  simp only
  rw [show (Real.cos (trackAngle i) * radiusVariation i) ^ 2
      + (Real.sin (trackAngle i) * radiusVariation i) ^ 2
      = radiusVariation i ^ 2 * (Real.sin (trackAngle i) ^ 2 + Real.cos (trackAngle i) ^ 2) by
        ring,
    Real.sin_sq_add_cos_sq, mul_one, Real.sqrt_sq hr]

/-! ### Track boundary offsets (`animate` setup loop, lines 154–173) -/

/-- Central difference `nextPoint - prevPoint` used as tangent direction,
indices taken modulo the point count as in the source
(`(i + 1) % trackPoints.length` and `(i - 1 + trackPoints.length) % trackPoints.length`). -/
noncomputable def dirAt (i : ℕ) : Pt2 :=
  ⟨(trackPoint ((i + 1) % numPoints)).x - (trackPoint ((i + numPoints - 1) % numPoints)).x,
   (trackPoint ((i + 1) % numPoints)).z - (trackPoint ((i + numPoints - 1) % numPoints)).z⟩

/-- Planar normalization, mirroring `THREE.Vector2.normalize`: divide by `length || 1`. -/
noncomputable def normalize2 (p : Pt2) : Pt2 :=
  ⟨p.x / (if len2 p = 0 then 1 else len2 p),
   p.z / (if len2 p = 0 then 1 else len2 p)⟩

/-- The loop's `perpendicular = new THREE.Vector2(-direction.y, direction.x)`
(the source's `Vector2.y` slot holds our `z` coordinate). -/
noncomputable def perpAt (i : ℕ) : Pt2 :=
  ⟨-(normalize2 (dirAt i)).z, (normalize2 (dirAt i)).x⟩

/-- The `outerPoint` of index `i` (offset by `trackWidth / 2` along the perpendicular). -/
noncomputable def outerPoint (i : ℕ) : Pt2 :=
  ⟨(trackPoint i).x + (perpAt i).x * (trackWidth / 2),
   (trackPoint i).z + (perpAt i).z * (trackWidth / 2)⟩

/-- The `innerPoint` of index `i`. -/
noncomputable def innerPoint (i : ℕ) : Pt2 :=
  ⟨(trackPoint i).x - (perpAt i).x * (trackWidth / 2),
   (trackPoint i).z - (perpAt i).z * (trackWidth / 2)⟩

theorem len2_nonneg (p : Pt2) : 0 ≤ len2 p :=
  Real.sqrt_nonneg _

theorem len2_eq_zero_iff (p : Pt2) : len2 p = 0 ↔ p.x = 0 ∧ p.z = 0 := by
  unfold len2
  rw [Real.sqrt_eq_zero (by positivity)]
  constructor
  · intro h
    constructor <;> nlinarith [sq_nonneg p.x, sq_nonneg p.z]
  · rintro ⟨hx, hz⟩
    rw [hx, hz]; ring

/-- The centerline point is periodic in its index with period `numPoints`. -/
theorem trackPoint_add_period (j : ℕ) : trackPoint (j + numPoints) = trackPoint j := by
  have hangle : trackAngle (j + numPoints) = trackAngle j + 2 * Real.pi := by
    unfold trackAngle numPoints
    push_cast
    ring
  have hrad : radiusVariation (j + numPoints) = radiusVariation j := by
    unfold radiusVariation
    rw [hangle,
      show (trackAngle j + 2 * Real.pi) * 2 = trackAngle j * 2 + (2 : ℕ) * (2 * Real.pi) by
        push_cast; ring,
      show (trackAngle j + 2 * Real.pi) * 4 = trackAngle j * 4 + (4 : ℕ) * (2 * Real.pi) by
        push_cast; ring,
      Real.sin_add_nat_mul_two_pi, Real.cos_add_nat_mul_two_pi]
  unfold trackPoint
  rw [hangle, hrad, Real.cos_add_two_pi, Real.sin_add_two_pi]

theorem trackPoint_add_mul_period (r q : ℕ) :
    trackPoint (r + numPoints * q) = trackPoint r := by
  induction q with
  | zero => rfl
  | succ n ih =>
      rw [show r + numPoints * (n + 1) = r + numPoints * n + numPoints by ring,
        trackPoint_add_period, ih]

theorem trackPoint_mod (j : ℕ) : trackPoint (j % numPoints) = trackPoint j := by
  conv_rhs => rw [show j = j % numPoints + numPoints * (j / numPoints) from
    (Nat.mod_add_div j numPoints).symm]
  rw [trackPoint_add_mul_period]

/-- Cross product of two centerline points in the plane, in terms of
their radii and the sine of the angle difference. -/
theorem trackPoint_cross (j m : ℕ) :
    (trackPoint j).z * (trackPoint m).x - (trackPoint j).x * (trackPoint m).z
      = radiusVariation j * radiusVariation m * Real.sin (trackAngle j - trackAngle m) := by
  unfold trackPoint
  simp only
  rw [Real.sin_sub]
  ring

/-- The tangent direction is never degenerate: adjacent-neighbour
centerline points never coincide, for any index. -/
theorem len2_dirAt_ne_zero (i : ℕ) : len2 (dirAt i) ≠ 0 := by
  intro h
  rw [len2_eq_zero_iff] at h
  unfold dirAt at h
  simp only at h
  obtain ⟨hx, hz⟩ := h
  rw [show i + numPoints - 1 = i + 31 by unfold numPoints; omega] at hx hz
  rw [trackPoint_mod (i + 1), trackPoint_mod (i + 31)] at hx hz
  have hxe : (trackPoint (i + 1)).x = (trackPoint (i + 31)).x := by linarith
  have hze : (trackPoint (i + 1)).z = (trackPoint (i + 31)).z := by linarith
  have hcross := trackPoint_cross (i + 1) (i + 31)
  rw [hxe, hze] at hcross
  have hzero : (0 : ℝ)
      = radiusVariation (i + 1) * radiusVariation (i + 31)
        * Real.sin (trackAngle (i + 1) - trackAngle (i + 31)) := by
    rw [← hcross]; ring
  have hdiff : trackAngle (i + 1) - trackAngle (i + 31) = Real.pi / 8 - 2 * Real.pi := by
    unfold trackAngle numPoints
    push_cast
    ring
  rw [hdiff, Real.sin_sub_two_pi] at hzero
  have hsin : 0 < Real.sin (Real.pi / 8) := by
    apply Real.sin_pos_of_pos_of_lt_pi
    · positivity
    · nlinarith [Real.pi_pos]
  have h1 := (radiusVariation_bounds (i + 1)).1
  have h2 := (radiusVariation_bounds (i + 31)).1
  have hr1 : (0:ℝ) < radiusVariation (i + 1) := by linarith
  have hr2 : (0:ℝ) < radiusVariation (i + 31) := by linarith
  have hprod : 0 < radiusVariation (i + 1) * radiusVariation (i + 31) * Real.sin (Real.pi / 8) :=
    mul_pos (mul_pos hr1 hr2) hsin
  linarith

/-- Rotating a planar vector by 90° preserves its length. -/
theorem len2_rot90 (p : Pt2) : len2 ⟨-p.z, p.x⟩ = len2 p := by
  unfold len2
  dsimp only
  rw [show (-p.z) ^ 2 + p.x ^ 2 = p.x ^ 2 + p.z ^ 2 by ring]

theorem len2_normalize2 (p : Pt2) (h : len2 p ≠ 0) : len2 (normalize2 p) = 1 := by
  have hpos : 0 < len2 p := lt_of_le_of_ne (len2_nonneg _) (Ne.symm h)
  have hsum : 0 < p.x ^ 2 + p.z ^ 2 := by
    unfold len2 at hpos
    exact Real.sqrt_pos.mp hpos
  unfold normalize2
  rw [if_neg h]
  unfold len2
  dsimp only
  rw [show (p.x / Real.sqrt (p.x ^ 2 + p.z ^ 2)) ^ 2
      + (p.z / Real.sqrt (p.x ^ 2 + p.z ^ 2)) ^ 2
      = (p.x ^ 2 + p.z ^ 2) / Real.sqrt (p.x ^ 2 + p.z ^ 2) ^ 2 by ring,
    Real.sq_sqrt (le_of_lt hsum), div_self (ne_of_gt hsum), Real.sqrt_one]

theorem len2_perpAt (i : ℕ) : len2 (perpAt i) = 1 := by
  unfold perpAt
  rw [len2_rot90]
  exact len2_normalize2 _ (len2_dirAt_ne_zero i)

theorem dist2_offset_add (p w : Pt2) (c : ℝ) (hc : 0 ≤ c) :
    dist2 ⟨p.x + w.x * c, p.z + w.z * c⟩ p = c * len2 w := by
  unfold dist2 len2
  dsimp only
  rw [show (p.x + w.x * c - p.x) ^ 2 + (p.z + w.z * c - p.z) ^ 2
      = c ^ 2 * (w.x ^ 2 + w.z ^ 2) by ring,
    Real.sqrt_mul (sq_nonneg c), Real.sqrt_sq hc]

theorem dist2_offset_sub (p w : Pt2) (c : ℝ) (hc : 0 ≤ c) :
    dist2 ⟨p.x - w.x * c, p.z - w.z * c⟩ p = c * len2 w := by
  unfold dist2 len2
  dsimp only
  rw [show (p.x - w.x * c - p.x) ^ 2 + (p.z - w.z * c - p.z) ^ 2
      = c ^ 2 * (w.x ^ 2 + w.z ^ 2) by ring,
    Real.sqrt_mul (sq_nonneg c), Real.sqrt_sq hc]

/-- C5: track generation with 32 points, base radius 180 and harmonic
amplitudes 15 and 8 returns exactly 32 centerline points, and every
point's Euclidean distance from the origin lies in `[180 - 23, 180 + 23]`. -/
theorem claim5_track_points :
    generateRandomTrack.length = 32
    ∧ ∀ i : Fin 32,
        157 ≤ len2 (generateRandomTrack.getD (i : ℕ) ⟨0, 0⟩)
        ∧ len2 (generateRandomTrack.getD (i : ℕ) ⟨0, 0⟩) ≤ 203 := by
  have hlen : generateRandomTrack.length = 32 := by
    unfold generateRandomTrack numPoints
    simp
  refine ⟨hlen, fun i => ?_⟩
  have hget : generateRandomTrack.getD (i : ℕ) ⟨0, 0⟩ = trackPoint (i : ℕ) := by
    have hi : (i : ℕ) < generateRandomTrack.length := by
      rw [hlen]; exact i.isLt
    rw [List.getD_eq_getElem _ _ hi]
    unfold generateRandomTrack
    simp
  rw [hget, len2_trackPoint]
  exact radiusVariation_bounds (i : ℕ)

/-- C6: for every centerline index, the derived outer and inner boundary
points are each at Euclidean distance exactly `trackWidth / 2 = 30` from
the centerline point, the offset direction being the 90°-rotated
normalized central difference of the neighbouring points (indices modulo
the point count). -/
theorem claim6_boundary_offsets (i : ℕ) :
    dist2 (outerPoint i) (trackPoint i) = trackWidth / 2
    ∧ dist2 (innerPoint i) (trackPoint i) = trackWidth / 2
    ∧ trackWidth / 2 = 30 := by
  have h30 : trackWidth / 2 = (30 : ℝ) := by
    unfold trackWidth; norm_num
  have hc : (0 : ℝ) ≤ trackWidth / 2 := by rw [h30]; norm_num
  refine ⟨?_, ?_, h30⟩
  · unfold outerPoint
    rw [dist2_offset_add _ _ _ hc, len2_perpAt, mul_one]
  · unfold innerPoint
    rw [dist2_offset_sub _ _ _ hc, len2_perpAt, mul_one]

/-! ### Vehicle dynamics (`animate` physics, lines 354–446, and
`handleKeyUp`, lines 329–336) -/

/-- Snapshot of the pressed keys read by one tick.  Each field merges
the key pair checked by the source (`keyw`/`arrowup`, `shiftleft`/`shiftright`…). -/
structure Keys where
  w : Bool
  s : Bool
  a : Bool
  d : Bool
  space : Bool
  shift : Bool
  u : Bool
  c : Bool

/-- The mutable closure state threaded through `animate` ticks. -/
structure CarState where
  position : Vec3
  rotationY : ℝ
  velocity : Vec3
  lateralVelocity : Vec3
  gear : ℕ
  rpm : ℝ
  speed : ℝ
  handbrakeIntensity : ℝ
  driftFactor : ℝ
  cameraTPP : Bool

/-- Lines 362–371: `acceleration` after key reads and the boost
multiplier (`keys` sets it to `-0.5` after `keyw` may have set `1`, so
the brake key overrides; SHIFT multiplies whatever value resulted). -/
def readAcceleration (k : Keys) : ℝ :=
  (if k.s then -0.5 else if k.w then 1 else 0) * (if k.shift then 1.5 else 1)

/-- Lines 368–369: `steering` (`keyd` assigns last, so right overrides left;
the left/right swap is the source's annotated remapping). -/
def readSteering (k : Keys) : ℝ :=
  if k.d then -1 else if k.a then 1 else 0

/-- Lines 377–381: first-order handbrake intensity response. -/
noncomputable def updateHandbrake (h : ℝ) (held : Bool) (dt : ℝ) : ℝ :=
  if held then min (h + dt * 3) 1 else max (h - dt * 4) 0

/-- Line 383 (declared in the source, not read by the physics). -/
noncomputable def gearRatios : List ℝ := [0, 0.3, 0.5, 0.7, 0.85, 0.95, 1.0]

/-- Line 384. -/
noncomputable def maxSpeedByGear : List ℝ := [0, 60, 100, 150, 200, 280, 350]

/-- Lookup `maxSpeedByGear[gear]`. -/
noncomputable def maxSpeedFor (g : ℕ) : ℝ :=
  maxSpeedByGear.getD g 0

/-- Line 386: `engineForce = acceleration * (30 + gear * 10)`. -/
def engineForce (acceleration : ℝ) (gear : ℕ) : ℝ :=
  acceleration * (30 + (gear : ℝ) * 10)

/-- Line 388 (declared in the source, not read afterwards). -/
def tireGrip (handbrakeIntensity : ℝ) : ℝ :=
  0.85 - handbrakeIntensity * 0.55

/-- Applying the car's yaw-only quaternion (`rotation.y = θ`) to a vector. -/
noncomputable def yawRotate (θ : ℝ) (v : Vec3) : Vec3 :=
  ⟨Real.cos θ * v.x + Real.sin θ * v.z, v.y, -Real.sin θ * v.x + Real.cos θ * v.z⟩

/-- Lines 392–393: forward axis `(0,0,1)` rotated by the car's yaw. -/
noncomputable def forwardDir (θ : ℝ) : Vec3 :=
  yawRotate θ ⟨0, 0, 1⟩

/-- Lines 416–417: lateral axis `(1,0,0)` rotated by the car's yaw. -/
noncomputable def rightDir (θ : ℝ) : Vec3 :=
  yawRotate θ ⟨1, 0, 0⟩

/-- Lines 401–403: rescale the velocity onto the gear's speed ceiling. -/
noncomputable def applyCap (v : Vec3) (m : ℝ) : Vec3 :=
  if m < v.length then v.normalize.scale m else v

/-- Lines 391–403: engine force integration, per-tick drag `0.98`, then
the gear speed cap — the velocity as it stands before the steering block. -/
noncomputable def postCapVelocity (rotY : ℝ) (vel : Vec3) (gear : ℕ) (k : Keys) (dt : ℝ) :
    Vec3 :=
  let acceleration := readAcceleration k
  let v1 := if acceleration ≠ 0
    then vel.add ((forwardDir rotY).scale (engineForce acceleration gear * dt))
    else vel
  applyCap (v1.scale 0.98) (maxSpeedFor gear)

/-- One full physics tick of the `animate` callback (lines 362–481,
excluding AI cars, camera transform and rendering). -/
noncomputable def animateStep (st : CarState) (k : Keys) (dt : ℝ) : CarState :=
  let steering := readSteering k
  let hb := updateHandbrake st.handbrakeIntensity k.space dt
  let currentMaxSpeed := maxSpeedFor st.gear
  let lateralGrip := 0.7 - hb * 0.6
  let v3 := postCapVelocity st.rotationY st.velocity st.gear k dt
  let drift2 := if 0.1 < |v3.length| ∧ steering ≠ 0
    then |steering| * min (v3.length / 50) 1 * (1 + hb * 2)
    else st.driftFactor
  let rotY2 := if 0.1 < |v3.length| ∧ steering ≠ 0
    then st.rotationY + steering * dt * min (|v3.length| / 30) 1 * (1 + hb * 0.8)
    else st.rotationY
  let lat1 := if (0.1 < |v3.length| ∧ steering ≠ 0) ∧ (0.2 < drift2 ∨ 0.3 < hb)
    then st.lateralVelocity.add
      ((rightDir rotY2).scale (steering * drift2 * v3.length * dt * (0.5 + hb * 0.7)))
    else st.lateralVelocity
  let lat2 := lat1.scale lateralGrip
  let pos2 := st.position.add ((v3.add lat2).scale dt)
  let v4 := if 0 < hb then v3.scale (0.85 + hb * 0.1) else v3
  let lat3 := if 0 < hb then lat2.scale (0.5 + hb * 0.3) else lat2
  let speed2 := v4.length * 2.5
  let rpm1 := min (800 + speed2 / currentMaxSpeed * 6000) 7000
  let goUp := k.u = false ∧ currentMaxSpeed * 0.9 < speed2 ∧ st.gear < 6
  let goDown := k.u = false ∧ speed2 < currentMaxSpeed * 0.4 ∧ 1 < st.gear
  { position := pos2
    rotationY := rotY2
    velocity := v4
    lateralVelocity := lat3
    gear := if goUp then st.gear + 1 else if goDown then st.gear - 1 else st.gear
    rpm := if goUp then 2500 else if goDown then 4500 else rpm1
    speed := speed2
    handbrakeIntensity := hb
    driftFactor := drift2
    cameraTPP := if k.c then !st.cameraTPP else st.cameraTPP }

/-- The `handleKeyUp` handler for the gear key (lines 332–336): cycle the
gear and force the rpm. -/
def handleKeyUpGear (st : CarState) : CarState :=
  { st with gear := if 6 ≤ st.gear then 1 else st.gear + 1, rpm := 3000 }

/-- The session-start state (lines 301–321): car at the first track
point, at rest, gear 1, rpm 800, no handbrake, TPP camera. -/
noncomputable def initialCar : CarState :=
  { position := ⟨(trackPoint 0).x, 0.5, (trackPoint 0).z⟩
    rotationY := 0
    velocity := ⟨0, 0, 0⟩
    lateralVelocity := ⟨0, 0, 0⟩
    gear := 1
    rpm := 800
    speed := 0
    handbrakeIntensity := 0
    driftFactor := 0
    cameraTPP := true }

/-- States reachable from the initial state by physics ticks with
nonnegative `dt` and manual gear-shift key releases. -/
inductive Reachable : CarState → Prop
  | init : Reachable initialCar
  | tick (s : CarState) (k : Keys) (dt : ℝ) (hs : Reachable s) (hdt : 0 ≤ dt) :
      Reachable (animateStep s k dt)
  | shiftKey (s : CarState) (hs : Reachable s) : Reachable (handleKeyUpGear s)

/-- Same, but with ticks of arbitrary (even negative) time deltas. -/
inductive ReachableAnyDt : CarState → Prop
  | init : ReachableAnyDt initialCar
  | tick (s : CarState) (k : Keys) (dt : ℝ) (hs : ReachableAnyDt s) :
      ReachableAnyDt (animateStep s k dt)
  | shiftKey (s : CarState) (hs : ReachableAnyDt s) : ReachableAnyDt (handleKeyUpGear s)

/-! ### Projection lemmas for the tick -/

theorem animateStep_handbrakeIntensity (st : CarState) (k : Keys) (dt : ℝ) :
    (animateStep st k dt).handbrakeIntensity
      = updateHandbrake st.handbrakeIntensity k.space dt := rfl

theorem animateStep_speed (st : CarState) (k : Keys) (dt : ℝ) :
    (animateStep st k dt).speed = (animateStep st k dt).velocity.length * 2.5 := rfl

theorem animateStep_velocity (st : CarState) (k : Keys) (dt : ℝ) :
    (animateStep st k dt).velocity =
      (if 0 < updateHandbrake st.handbrakeIntensity k.space dt
       then (postCapVelocity st.rotationY st.velocity st.gear k dt).scale
          (0.85 + updateHandbrake st.handbrakeIntensity k.space dt * 0.1)
       else postCapVelocity st.rotationY st.velocity st.gear k dt) := rfl

theorem animateStep_gear (st : CarState) (k : Keys) (dt : ℝ) :
    (animateStep st k dt).gear =
      (if k.u = false ∧ maxSpeedFor st.gear * 0.9 < (animateStep st k dt).speed
          ∧ st.gear < 6
       then st.gear + 1
       else if k.u = false ∧ (animateStep st k dt).speed < maxSpeedFor st.gear * 0.4
          ∧ 1 < st.gear
       then st.gear - 1
       else st.gear) := rfl

theorem animateStep_driftFactor (st : CarState) (k : Keys) (dt : ℝ) :
    (animateStep st k dt).driftFactor =
      (if 0.1 < |(postCapVelocity st.rotationY st.velocity st.gear k dt).length|
          ∧ readSteering k ≠ 0
       then |readSteering k|
          * min ((postCapVelocity st.rotationY st.velocity st.gear k dt).length / 50) 1
          * (1 + updateHandbrake st.handbrakeIntensity k.space dt * 2)
       else st.driftFactor) := rfl

/-! ### Bounds lemmas -/

theorem updateHandbrake_mem (h dt : ℝ) (held : Bool) (h0 : 0 ≤ h) (h1 : h ≤ 1)
    (hdt : 0 ≤ dt) :
    0 ≤ updateHandbrake h held dt ∧ updateHandbrake h held dt ≤ 1 := by
  unfold updateHandbrake
  cases held with
  | false =>
      simp only [Bool.false_eq_true, if_false]
      exact ⟨le_max_right _ _, max_le (by linarith) (by norm_num)⟩
  | true =>
      simp only [if_true]
      exact ⟨le_min (by linarith) (by norm_num), min_le_right _ _⟩

theorem maxSpeedFor_nonneg (g : ℕ) : 0 ≤ maxSpeedFor g := by
  unfold maxSpeedFor maxSpeedByGear
  match g with
  | 0 => norm_num [List.getD]
  | 1 => norm_num [List.getD]
  | 2 => norm_num [List.getD]
  | 3 => norm_num [List.getD]
  | 4 => norm_num [List.getD]
  | 5 => norm_num [List.getD]
  | 6 => norm_num [List.getD]
  | (n + 7) =>
      rw [List.getD_eq_default _ _ (by simp)]

/-- C1: every state reachable from the initial state (gear = 1,
handbrakeIntensity = 0) by ticks with any inputs and any `dt ≥ 0`
(and by manual gear-shift key releases) has its gear in `[1,6]` and its
handbrake intensity in `[0,1]`. -/
theorem claim1_gear_handbrake_bounds (st : CarState) (h : Reachable st) :
    (1 ≤ st.gear ∧ st.gear ≤ 6)
    ∧ (0 ≤ st.handbrakeIntensity ∧ st.handbrakeIntensity ≤ 1) := by
  induction h with
  | init =>
      refine ⟨⟨?_, ?_⟩, ?_, ?_⟩ <;> norm_num [initialCar]
  | tick s k dt hs hdt ih =>
      obtain ⟨⟨hg1, hg6⟩, hh0, hh1⟩ := ih
      constructor
      · rw [animateStep_gear]
        split_ifs with h1 h2
        · omega
        · omega
        · omega
      · rw [animateStep_handbrakeIntensity]
        exact updateHandbrake_mem _ _ _ hh0 hh1 hdt
  | shiftKey s hs ih =>
      obtain ⟨⟨hg1, hg6⟩, hh⟩ := ih
      refine ⟨?_, hh⟩
      unfold handleKeyUpGear
      dsimp only
      split_ifs with h6
      · omega
      · omega

/-- Witness for C1 at the initial state. -/
theorem claim1_witness :
    Reachable initialCar
    ∧ ((1 ≤ initialCar.gear ∧ initialCar.gear ≤ 6)
      ∧ (0 ≤ initialCar.handbrakeIntensity ∧ initialCar.handbrakeIntensity ≤ 1)) :=
  ⟨Reachable.init, claim1_gear_handbrake_bounds initialCar Reachable.init⟩

theorem applyCap_length_le (v : Vec3) (m : ℝ) (hm : 0 ≤ m) :
    (applyCap v m).length ≤ v.length := by
  unfold applyCap
  split_ifs with h
  · have hv : v.length ≠ 0 := ne_of_gt (lt_of_le_of_lt hm h)
    rw [Vec3.length_scale, Vec3.length_normalize v hv, mul_one, abs_of_nonneg hm]
    exact le_of_lt h
  · exact le_refl _

/-- With zero effective throttle the engine stage is skipped: the
pre-steering velocity is just drag followed by the cap. -/
theorem postCapVelocity_coast (rotY : ℝ) (vel : Vec3) (gear : ℕ) (k : Keys) (dt : ℝ)
    (ha : readAcceleration k = 0) :
    postCapVelocity rotY vel gear k dt = applyCap (vel.scale 0.98) (maxSpeedFor gear) := by
  unfold postCapVelocity
  rw [ha]
  simp

/-- C2: with zero throttle and zero steering inputs, one tick with any
`dt ≥ 0` cannot increase the velocity magnitude, regardless of the
handbrake (or boost, gear and camera) inputs, for any vehicle state
whose handbrake intensity is within its `[0,1]` data-model range. -/
theorem claim2_coast_speed_nonincreasing (st : CarState) (space shift u c : Bool)
    (dt : ℝ) (hdt : 0 ≤ dt)
    (hh0 : 0 ≤ st.handbrakeIntensity) (hh1 : st.handbrakeIntensity ≤ 1) :
    (animateStep st ⟨false, false, false, false, space, shift, u, c⟩ dt).velocity.length
      ≤ st.velocity.length := by
  have ha : readAcceleration ⟨false, false, false, false, space, shift, u, c⟩ = 0 := by
    unfold readAcceleration
    simp
  have hbmem := updateHandbrake_mem st.handbrakeIntensity dt space hh0 hh1 hdt
  have hcap : (postCapVelocity st.rotationY st.velocity st.gear
      ⟨false, false, false, false, space, shift, u, c⟩ dt).length
      ≤ (st.velocity.scale 0.98).length := by
    rw [postCapVelocity_coast _ _ _ _ _ ha]
    exact applyCap_length_le _ _ (maxSpeedFor_nonneg _)
  have hdrag : (st.velocity.scale 0.98).length ≤ st.velocity.length := by
    rw [Vec3.length_scale, abs_of_nonneg (by norm_num : (0:ℝ) ≤ 0.98)]
    nlinarith [Vec3.length_nonneg st.velocity]
  have hchain := le_trans hcap hdrag
  rw [animateStep_velocity]
  split_ifs with hpos
  · rw [Vec3.length_scale]
    have hfac0 : 0 ≤ 0.85 + updateHandbrake st.handbrakeIntensity space dt * 0.1 := by
      linarith [hbmem.1]
    have hfac1 : 0.85 + updateHandbrake st.handbrakeIntensity space dt * 0.1 ≤ 1 := by
      linarith [hbmem.2]
    have hlen := Vec3.length_nonneg (postCapVelocity st.rotationY st.velocity st.gear
      ⟨false, false, false, false, space, shift, u, c⟩ dt)
    rw [abs_of_nonneg hfac0]
    nlinarith
  · exact hchain

/-- Witness for C2 at the initial state with all keys released and `dt = 0`. -/
theorem claim2_witness :
    0 ≤ (0 : ℝ) ∧ 0 ≤ initialCar.handbrakeIntensity ∧ initialCar.handbrakeIntensity ≤ 1
    ∧ (animateStep initialCar ⟨false, false, false, false, false, false, false, false⟩
        0).velocity.length ≤ initialCar.velocity.length :=
  ⟨le_refl 0, le_refl 0, zero_le_one,
    claim2_coast_speed_nonincreasing initialCar false false false false 0
      (le_refl 0) (le_refl 0) zero_le_one⟩

@[simp] theorem Vec3.add_x (a b : Vec3) : (a.add b).x = a.x + b.x := rfl

@[simp] theorem Vec3.add_y (a b : Vec3) : (a.add b).y = a.y + b.y := rfl

@[simp] theorem Vec3.add_z (a b : Vec3) : (a.add b).z = a.z + b.z := rfl

@[simp] theorem Vec3.scale_x (v : Vec3) (c : ℝ) : (v.scale c).x = v.x * c := rfl

@[simp] theorem Vec3.scale_y (v : Vec3) (c : ℝ) : (v.scale c).y = v.y * c := rfl

@[simp] theorem Vec3.scale_z (v : Vec3) (c : ℝ) : (v.scale c).z = v.z * c := rfl

@[simp] theorem yawRotate_y (θ : ℝ) (v : Vec3) : (yawRotate θ v).y = v.y := rfl

@[simp] theorem forwardDir_y (θ : ℝ) : (forwardDir θ).y = 0 := rfl

@[simp] theorem rightDir_y (θ : ℝ) : (rightDir θ).y = 0 := rfl

/-- The engine/drag/cap pipeline never introduces a vertical velocity
component. -/
theorem postCapVelocity_y (rotY : ℝ) (vel : Vec3) (gear : ℕ) (k : Keys) (dt : ℝ)
    (hy : vel.y = 0) : (postCapVelocity rotY vel gear k dt).y = 0 := by
  unfold postCapVelocity applyCap Vec3.normalize
  dsimp only
  split_ifs <;> simp [hy]

/-- One tick keeps the simulation planar: vertical velocity components
stay zero and the vertical position coordinate is untouched, for any
inputs and any real `dt`. -/
theorem animateStep_planar (st : CarState) (k : Keys) (dt : ℝ)
    (hv : st.velocity.y = 0) (hl : st.lateralVelocity.y = 0) :
    (animateStep st k dt).velocity.y = 0
    ∧ (animateStep st k dt).lateralVelocity.y = 0
    ∧ (animateStep st k dt).position.y = st.position.y := by
  have hcap := postCapVelocity_y st.rotationY st.velocity st.gear k dt hv
  unfold animateStep
  dsimp only
  refine ⟨?_, ?_, ?_⟩ <;> (split_ifs <;> simp [hcap, hl, hv])

/-- C10: the simulation is planar — every state reachable from the
initial state by ticks with any inputs and any `dt` (and gear-shift key
releases) has zero vertical velocity and lateral-velocity components and
keeps the vehicle's vertical position at `0.5`; the only rotation ever
applied is about the vertical (yaw) axis. -/
theorem claim10_planar_invariant (st : CarState) (h : ReachableAnyDt st) :
    st.velocity.y = 0 ∧ st.lateralVelocity.y = 0 ∧ st.position.y = 0.5 := by
  induction h with
  | init =>
      refine ⟨rfl, rfl, rfl⟩
  | tick s k dt hs ih =>
      obtain ⟨hv, hl, hp⟩ := ih
      have h3 := animateStep_planar s k dt hv hl
      exact ⟨h3.1, h3.2.1, by rw [h3.2.2, hp]⟩
  | shiftKey s hs ih => exact ih

/-- Witness for C10 at the initial state. -/
theorem claim10_witness :
    ReachableAnyDt initialCar
    ∧ (initialCar.velocity.y = 0 ∧ initialCar.lateralVelocity.y = 0
      ∧ initialCar.position.y = 0.5) :=
  ⟨ReachableAnyDt.init, claim10_planar_invariant initialCar ReachableAnyDt.init⟩

/-- C9: when both steer keys are held in one tick, the steer-right
assignment (which executes last in the source) wins: the resolved
steering value, and the whole tick outcome, are identical to holding
steer-right alone. -/
theorem claim9_steer_conflict (st : CarState) (dt : ℝ) (w s space shift u c : Bool) :
    readSteering ⟨w, s, true, true, space, shift, u, c⟩
      = readSteering ⟨w, s, false, true, space, shift, u, c⟩
    ∧ animateStep st ⟨w, s, true, true, space, shift, u, c⟩ dt
      = animateStep st ⟨w, s, false, true, space, shift, u, c⟩ dt :=
  ⟨rfl, rfl⟩

/-- C7 counterexample: on a tick with zero steering the post-tick
`driftFactor` equals the pre-tick value, so it does depend on the
pre-tick `driftFactor`: two states differing only in that field keep
their different values across the tick. -/
theorem claim7_driftFactor_persists :
    (animateStep { initialCar with driftFactor := 1 }
        ⟨false, false, false, false, false, false, false, false⟩ 0).driftFactor
      ≠ (animateStep initialCar
        ⟨false, false, false, false, false, false, false, false⟩ 0).driftFactor := by
  rw [animateStep_driftFactor, animateStep_driftFactor,
    if_neg (fun hc => hc.2 rfl), if_neg (fun hc => hc.2 rfl)]
  exact one_ne_zero

/-- C7 amended: `driftFactor` is freshly derived from the tick's
steering, speed factor and handbrake intensity only on ticks where the
post-cap speed exceeds `0.1` and steering is nonzero (and then it does
not depend on the pre-tick value, which is not an argument of the
formula); on all other ticks — in particular when steering is zero or
speed is at or below the minimum steering speed — it retains its
pre-tick value. -/
theorem claim7_amended_driftFactor_update (st : CarState) (k : Keys) (dt : ℝ) :
    (animateStep st k dt).driftFactor =
      (if 0.1 < |(postCapVelocity st.rotationY st.velocity st.gear k dt).length|
          ∧ readSteering k ≠ 0
       then |readSteering k|
          * min ((postCapVelocity st.rotationY st.velocity st.gear k dt).length / 50) 1
          * (1 + updateHandbrake st.handbrakeIntensity k.space dt * 2)
       else st.driftFactor) := rfl

/-- C4 counterexample: with the brake key held (effective throttle
`-0.5 ≤ 0`) the boost key changes the engine force (`-30` in gear 1
instead of `-20`), because the source multiplies `acceleration` by 1.5
regardless of its sign. -/
theorem claim4_boost_affects_braking :
    readAcceleration ⟨false, true, false, false, false, true, false, false⟩ ≤ 0
    ∧ engineForce (readAcceleration ⟨false, true, false, false, false, true, false, false⟩) 1
      = -30
    ∧ engineForce (readAcceleration ⟨false, true, false, false, false, false, false, false⟩) 1
      = -20
    ∧ engineForce (readAcceleration ⟨false, true, false, false, false, true, false, false⟩) 1
      ≠ engineForce (readAcceleration ⟨false, true, false, false, false, false, false, false⟩) 1 := by
  refine ⟨?_, ?_, ?_, ?_⟩ <;> norm_num [readAcceleration, engineForce]

/-- C4 amended: the boost input multiplies the effective throttle — and
hence the engine force — by 1.5 whenever a throttle input is active,
including when braking (throttle < 0); with no throttle input the force
is zero either way. -/
theorem claim4_amended_boost_scales_force (w s a d space u c : Bool) (g : ℕ) :
    engineForce (readAcceleration ⟨w, s, a, d, space, true, u, c⟩) g
      = 1.5 * engineForce (readAcceleration ⟨w, s, a, d, space, false, u, c⟩) g := by
  unfold readAcceleration engineForce
  cases s <;> cases w <;> norm_num <;> ring

/-! ### The full-throttle scenario (claims about holding W from rest) -/

/-- Keys snapshot with only the forward-throttle key held. -/
def throttleKeys : Keys :=
  ⟨true, false, false, false, false, false, false, false⟩

/-- Scalar value of the velocity's `z` component after engine force and
drag, when driving straight along `+z` in gear `g`. -/
noncomputable def scenZ (v dt : ℝ) (g : ℕ) : ℝ :=
  (v + (30 + (g : ℝ) * 10) * dt) * 0.98

/-- Value of `scenZ` after the gear speed cap. -/
noncomputable def scenU (v dt : ℝ) (g : ℕ) : ℝ :=
  if maxSpeedFor g < scenZ v dt g then maxSpeedFor g else scenZ v dt g

theorem Vec3.ext_components {a b : Vec3} (hx : a.x = b.x) (hy : a.y = b.y)
    (hz : a.z = b.z) : a = b := by
  cases a
  cases b
  dsimp at hx hy hz
  rw [hx, hy, hz]

theorem applyCap_zdir (z m : ℝ) (hz : 0 ≤ z) (hm : 0 ≤ m) :
    applyCap ⟨0, 0, z⟩ m = ⟨0, 0, if m < z then m else z⟩ := by
  unfold applyCap
  rw [Vec3.length_zdir, abs_of_nonneg hz]
  split_ifs with h
  · have hzpos : 0 < z := lt_of_le_of_lt hm h
    have hzne : z ≠ 0 := ne_of_gt hzpos
    unfold Vec3.normalize
    rw [Vec3.length_zdir, abs_of_nonneg hz, if_neg hzne]
    refine Vec3.ext_components ?_ ?_ ?_
    · simp
    · simp
    · show z * (1 / z) * m = m
      field_simp
  · rfl

theorem scenZ_nonneg (v dt : ℝ) (g : ℕ) (hv : 0 ≤ v) (hdt : 0 ≤ dt) :
    0 ≤ scenZ v dt g := by
  unfold scenZ
  have h10 : (0 : ℝ) ≤ (g : ℝ) * 10 := by positivity
  nlinarith

theorem scenU_nonneg (v dt : ℝ) (g : ℕ) (hv : 0 ≤ v) (hdt : 0 ≤ dt) :
    0 ≤ scenU v dt g := by
  unfold scenU
  split_ifs with h
  · exact maxSpeedFor_nonneg g
  · exact scenZ_nonneg v dt g hv hdt

/-- Under full throttle along `+z`, the engine/drag/cap stage produces
exactly the scalar `scenU` on the `z` axis. -/
theorem scenario_postCap (v dt : ℝ) (g : ℕ) (hv : 0 ≤ v) (hdt : 0 ≤ dt) :
    postCapVelocity 0 ⟨0, 0, v⟩ g throttleKeys dt = ⟨0, 0, scenU v dt g⟩ := by
  have hacc : readAcceleration throttleKeys = 1 := by
    norm_num [readAcceleration, throttleKeys]
  unfold postCapVelocity
  rw [hacc]
  dsimp only
  rw [if_pos one_ne_zero]
  have hfwd : forwardDir 0 = ⟨0, 0, 1⟩ := by
    unfold forwardDir yawRotate
    refine Vec3.ext_components ?_ ?_ ?_ <;> simp
  rw [hfwd]
  have hv1 : (Vec3.mk 0 0 v).add ((Vec3.mk 0 0 1).scale (engineForce 1 g * dt))
      = ⟨0, 0, v + (30 + (g : ℝ) * 10) * dt⟩ := by
    unfold engineForce
    refine Vec3.ext_components ?_ ?_ ?_ <;> simp
  rw [hv1]
  have hv2 : (Vec3.mk 0 0 (v + (30 + (g : ℝ) * 10) * dt)).scale 0.98
      = ⟨0, 0, scenZ v dt g⟩ := by
    unfold scenZ
    refine Vec3.ext_components ?_ ?_ ?_ <;> simp
  rw [hv2]
  rw [applyCap_zdir _ _ (scenZ_nonneg v dt g hv hdt) (maxSpeedFor_nonneg g)]
  rfl

/-- One full-throttle tick from a straight-line state: all fields of the
resulting state in scalar form. -/
theorem scenario_step (s : CarState) (v dt : ℝ)
    (hvel : s.velocity = ⟨0, 0, v⟩) (hlat : s.lateralVelocity = ⟨0, 0, 0⟩)
    (hrot : s.rotationY = 0) (hhb : s.handbrakeIntensity = 0)
    (hv : 0 ≤ v) (hdt : 0 ≤ dt) :
    (animateStep s throttleKeys dt).velocity = ⟨0, 0, scenU v dt s.gear⟩
    ∧ (animateStep s throttleKeys dt).lateralVelocity = ⟨0, 0, 0⟩
    ∧ (animateStep s throttleKeys dt).rotationY = 0
    ∧ (animateStep s throttleKeys dt).handbrakeIntensity = 0
    ∧ (animateStep s throttleKeys dt).driftFactor = s.driftFactor
    ∧ (animateStep s throttleKeys dt).speed = scenU v dt s.gear * 2.5
    ∧ (animateStep s throttleKeys dt).gear
        = (if maxSpeedFor s.gear * 0.9 < scenU v dt s.gear * 2.5 ∧ s.gear < 6
           then s.gear + 1
           else if scenU v dt s.gear * 2.5 < maxSpeedFor s.gear * 0.4 ∧ 1 < s.gear
           then s.gear - 1
           else s.gear) := by
  have hst : readSteering throttleKeys = 0 := rfl
  have hbz : updateHandbrake s.handbrakeIntensity throttleKeys.space dt = 0 := by
    rw [hhb]
    unfold updateHandbrake
    rw [if_neg (by simp [throttleKeys])]
    exact max_eq_right (by linarith)
  have hpc : postCapVelocity s.rotationY s.velocity s.gear throttleKeys dt
      = ⟨0, 0, scenU v dt s.gear⟩ := by
    rw [hrot, hvel]
    exact scenario_postCap v dt s.gear hv hdt
  have hun : 0 ≤ scenU v dt s.gear := scenU_nonneg v dt s.gear hv hdt
  have hlen : (Vec3.mk 0 0 (scenU v dt s.gear)).length = scenU v dt s.gear := by
    rw [Vec3.length_zdir, abs_of_nonneg hun]
  have hzero : (Vec3.mk 0 0 0).scale (0.7 - 0 * 0.6) = ⟨0, 0, 0⟩ := by
    refine Vec3.ext_components ?_ ?_ ?_ <;> simp
  have hu : throttleKeys.u = false := rfl
  unfold animateStep
  dsimp only
  rw [hst, hbz, hpc, hlat]
  simp only [hlen, hu, hrot, hzero, ne_eq, eq_self_iff_true, not_true_eq_false,
    and_false, false_and, lt_self_iff_false, if_false, true_and, and_true]

theorem maxSpeedFor_pos (g : ℕ) (h1 : 1 ≤ g) (h6 : g ≤ 6) : 0 < maxSpeedFor g := by
  interval_cases g <;> norm_num [maxSpeedFor, maxSpeedByGear, List.getD]

theorem maxSpeedFor_succ_le (g : ℕ) (h1 : 1 ≤ g) (h5 : g ≤ 5) :
    maxSpeedFor g ≤ maxSpeedFor (g + 1) := by
  interval_cases g <;> norm_num [maxSpeedFor, maxSpeedByGear, List.getD]

theorem maxSpeedFor_upshift_threshold (g : ℕ) (h1 : 1 ≤ g) (h5 : g ≤ 5) :
    maxSpeedFor (g + 1) * 0.4 ≤ maxSpeedFor g * 0.9 := by
  interval_cases g <;> norm_num [maxSpeedFor, maxSpeedByGear, List.getD]

/-- Inductive invariant of the full-throttle scenario: the car drives
straight along `+z` with nonnegative scalar speed `v` bounded both by the
drag/force fixed point and by the gear cap, and, above first gear, fast
enough that the automatic downshift cannot fire. -/
def ScenInv (dt : ℝ) (s : CarState) : Prop :=
  ∃ v : ℝ,
    s.velocity = ⟨0, 0, v⟩
    ∧ 0 ≤ v
    ∧ s.lateralVelocity = ⟨0, 0, 0⟩
    ∧ s.rotationY = 0
    ∧ s.handbrakeIntensity = 0
    ∧ 1 ≤ s.gear
    ∧ s.gear ≤ 6
    ∧ v ≤ 49 * ((30 + (s.gear : ℝ) * 10) * dt)
    ∧ v ≤ maxSpeedFor s.gear
    ∧ (1 < s.gear → maxSpeedFor s.gear * 0.4 ≤ v * 2.5)

theorem scenInv_step (dt : ℝ) (hdt : 0 ≤ dt) (s : CarState) (hs : ScenInv dt s) :
    ScenInv dt (animateStep s throttleKeys dt)
    ∧ s.velocity.length ≤ (animateStep s throttleKeys dt).velocity.length
    ∧ (animateStep s throttleKeys dt).speed ≤ 2.5 * maxSpeedFor s.gear := by
  obtain ⟨v, hvel, hv, hlat, hrot, hhb, hg1, hg6, hbound, hcap, hdown⟩ := hs
  obtain ⟨e1, e2, e3, e4, e5, e6, e7⟩ :=
    scenario_step s v dt hvel hlat hrot hhb hv hdt
  have hun : 0 ≤ scenU v dt s.gear := scenU_nonneg v dt s.gear hv hdt
  have hFdt : 0 ≤ (30 + (s.gear : ℝ) * 10) * dt := by positivity
  have hz49 : scenZ v dt s.gear ≤ 49 * ((30 + (s.gear : ℝ) * 10) * dt) := by
    unfold scenZ
    linarith [hbound]
  have huv : v ≤ scenU v dt s.gear := by
    unfold scenU
    split_ifs with hc
    · exact hcap
    · unfold scenZ
      linarith [hbound]
  have huB : scenU v dt s.gear ≤ 49 * ((30 + (s.gear : ℝ) * 10) * dt) := by
    unfold scenU
    split_ifs with hc
    · exact le_trans (le_of_lt hc) hz49
    · exact hz49
  have huC : scenU v dt s.gear ≤ maxSpeedFor s.gear := by
    unfold scenU
    split_ifs with hc
    · exact le_refl _
    · exact not_lt.mp hc
  have hnd : ¬(scenU v dt s.gear * 2.5 < maxSpeedFor s.gear * 0.4 ∧ 1 < s.gear) := by
    rintro ⟨hlt, hg⟩
    have h1 := hdown hg
    linarith [huv]
  refine ⟨⟨scenU v dt s.gear, e1, hun, e2, e3, e4, ?_, ?_, ?_, ?_, ?_⟩, ?_, ?_⟩
  · rw [e7]
    split_ifs with hup
    · omega
    · exact hg1
  · rw [e7]
    split_ifs with hup
    · have hlt := hup.2
      omega
    · exact hg6
  · rw [e7]
    split_ifs with hup
    · push_cast
      have hmono : (30 + (s.gear : ℝ) * 10) * dt ≤ (30 + ((s.gear : ℝ) + 1) * 10) * dt :=
        mul_le_mul_of_nonneg_right (by linarith) hdt
      linarith [huB]
    · exact huB
  · rw [e7]
    split_ifs with hup
    · have hlt := hup.2
      exact le_trans huC (maxSpeedFor_succ_le s.gear hg1 (by omega))
    · exact huC
  · rw [e7]
    split_ifs with hup
    · intro hgg
      have hlt := hup.2
      have hthr := maxSpeedFor_upshift_threshold s.gear hg1 (by omega)
      linarith [hup.1]
    · intro hgg
      have h1 := hdown hgg
      linarith [huv]
  · rw [hvel, e1, Vec3.length_zdir, Vec3.length_zdir, abs_of_nonneg hv,
      abs_of_nonneg hun]
    exact huv
  · rw [e6]
    linarith [huC]

/-- Tick trajectory of the full-throttle scenario: from the initial
state, hold only the forward key at a fixed `dt`. -/
noncomputable def c3Traj (dt : ℝ) : ℕ → CarState
  | 0 => initialCar
  | n + 1 => animateStep (c3Traj dt n) throttleKeys dt

theorem scenInv_traj (dt : ℝ) (hdt : 0 ≤ dt) (n : ℕ) : ScenInv dt (c3Traj dt n) := by
  induction n with
  | zero =>
      refine ⟨0, rfl, le_refl 0, rfl, rfl, rfl, le_refl 1,
        show (1 : ℕ) ≤ 6 by norm_num, ?_, ?_, ?_⟩
      · have hc : (0 : ℝ) ≤ 30 + ((c3Traj dt 0).gear : ℝ) * 10 := by positivity
        have hp := mul_nonneg hc hdt
        linarith
      · exact maxSpeedFor_nonneg _
      · intro h
        norm_num [c3Traj, initialCar] at h
  | succ n ih => exact (scenInv_step dt hdt _ ih).1

/-- C3 counterexample: from rest in gear 1 with throttle held and
`dt = 1`, already the first tick shows `displaySpeed = 98`, strictly
above `maxSpeedForGear[1] = 60` — the telemetry speed is
`2.5 × |velocity|`, so it is not bounded by the gear-1 cap. -/
theorem claim3_displaySpeed_exceeds_gear1_cap :
    (c3Traj 1 1).speed = 98 ∧ maxSpeedFor 1 = 60
    ∧ maxSpeedFor 1 < (c3Traj 1 1).speed := by
  obtain ⟨e1, e2, e3, e4, e5, e6, e7⟩ :=
    scenario_step initialCar 0 1 rfl rfl rfl rfl (le_refl 0) zero_le_one
  have hmax : maxSpeedFor 1 = 60 := by
    norm_num [maxSpeedFor, maxSpeedByGear, List.getD]
  have hu : scenU 0 1 initialCar.gear = 39.2 := by
    show scenU 0 1 1 = 39.2
    unfold scenU scenZ
    rw [hmax]
    norm_num
  have hsp : (c3Traj 1 1).speed = scenU 0 1 initialCar.gear * 2.5 := e6
  refine ⟨?_, hmax, ?_⟩
  · rw [hsp, hu]
    norm_num
  · rw [hsp, hu, hmax]
    norm_num

/-- C3 amended: from rest in gear 1, holding throttle = 1 with zero
steering and no handbrake at a fixed `dt ≥ 0`, the velocity magnitude is
nondecreasing tick over tick, and at every tick `displaySpeed` is
bounded by `2.5 ×` the speed cap of the gear in effect during that tick
(the gear-1 cap itself does not bound `displaySpeed`, since automatic
upshifts raise the cap and `displaySpeed = 2.5 × |velocity|`). -/
theorem claim3_amended_monotone_bounded (dt : ℝ) (hdt : 0 ≤ dt) (n : ℕ) :
    (c3Traj dt n).velocity.length ≤ (c3Traj dt (n + 1)).velocity.length
    ∧ (c3Traj dt (n + 1)).speed ≤ 2.5 * maxSpeedFor (c3Traj dt n).gear := by
  have h := scenInv_step dt hdt (c3Traj dt n) (scenInv_traj dt hdt n)
  exact ⟨h.2.1, h.2.2⟩

/-- Witness for the amended C3 at `dt = 0`, first tick. -/
theorem claim3_amended_witness :
    0 ≤ (0 : ℝ)
    ∧ ((c3Traj 0 0).velocity.length ≤ (c3Traj 0 1).velocity.length
      ∧ (c3Traj 0 1).speed ≤ 2.5 * maxSpeedFor (c3Traj 0 0).gear) :=
  ⟨le_refl 0, claim3_amended_monotone_bounded 0 (le_refl 0) 0⟩

/-- C8: the concrete scenario `dt = 1/60`, gear 1, throttle 1, steer 0,
no handbrake, no boost, from rest with heading `+z`: the engine force is
`1*(30 + 1*10) = 40`, after integration and the drag multiplier `0.98`
the velocity is `(0, 0, 40·(1/60)·0.98)` with `z ≈ 0.653`, and the
lateral velocity stays zero. -/
theorem claim8_concrete_tick :
    engineForce (readAcceleration throttleKeys) initialCar.gear = 40
    ∧ (animateStep initialCar throttleKeys (1 / 60)).velocity
        = ⟨0, 0, 40 * (1 / 60) * 0.98⟩
    ∧ (animateStep initialCar throttleKeys (1 / 60)).lateralVelocity = ⟨0, 0, 0⟩
    ∧ |(40 : ℝ) * (1 / 60) * 0.98 - 0.653| < 1 / 1000 := by
  obtain ⟨e1, e2, e3, e4, e5, e6, e7⟩ :=
    scenario_step initialCar 0 (1 / 60) rfl rfl rfl rfl (le_refl 0) (by norm_num)
  refine ⟨?_, ?_, e2, ?_⟩
  · norm_num [engineForce, readAcceleration, throttleKeys, initialCar]
  · rw [e1]
    have hu : scenU 0 (1 / 60) initialCar.gear = 40 * (1 / 60) * 0.98 := by
      show scenU 0 (1 / 60) 1 = 40 * (1 / 60) * 0.98
      have hmax : maxSpeedFor 1 = 60 := by
        norm_num [maxSpeedFor, maxSpeedByGear, List.getD]
      unfold scenU scenZ
      rw [hmax]
      norm_num
    rw [hu]
  · rw [abs_of_nonneg (by norm_num : (0 : ℝ) ≤ 40 * (1 / 60) * 0.98 - 0.653)]
    norm_num

end CarGame
